import Mathlib

/-!
Shallow embedding of the OwnSpace backend visit-scheduling core
(routes/visitRoutes.js, models/VisitRequest.js, the VisitSlot schema,
the expiry sweepers in index.js) as executable Lean definitions, and
theorems checking the specification's claims against them.

Conventions of the embedding:
* Instants are natural numbers counting seconds; a calendar date string
  "YYYY-MM-DD" is represented by its day index `t / 86400` and a wall
  clock string "HH:mm" by its minute-of-day.  Lexicographic comparison of
  the zero-padded source strings agrees with numeric comparison of these
  numbers, so the source's string comparisons become `<`/`≤` on `Nat`.
* Mongo documents become structures; a collection is a `List`;
  `findOne`/`find`/`deleteMany`/`updateMany` become `find?`, `filter`
  and `map` over those lists.
* Each Express handler becomes a function from the store (plus the
  request data and the current instant) to a response constructor
  mirroring the handler's `res.status(...)` branches, paired with the
  store after the handler's writes.
-/

namespace OwnSpace

/-- Seconds in one civil day. -/
def secPerDay : Nat := 86400

/-- Day index of an instant; embeds the source's `toYMD`. -/
def dayOf (t : Nat) : Nat := t / secPerDay

/-- Second of the day of an instant. -/
def secOfDay (t : Nat) : Nat := t % secPerDay

/-- Minute of the day of an instant; embeds the source's `toHM`
(which drops seconds). -/
def minOfDay (t : Nat) : Nat := secOfDay t / 60

/-- Hour component of an instant (source: `now.getHours()`). -/
def hourOf (t : Nat) : Nat := secOfDay t / 3600

/-- Minute-within-hour component (source: `now.getMinutes()`). -/
def minuteOf (t : Nat) : Nat := (secOfDay t % 3600) / 60

/-- Build an instant from day, hour, minute and second components. -/
def mkInstant (d h m s : Nat) : Nat := d * secPerDay + h * 3600 + m * 60 + s

/-- VisitSlot document (schema in the model file exporting `VisitSlot`):
property, date (string "YYYY-MM-DD"), startTime/endTime (strings
"HH:mm"), createdBy, isBooked (default false), bookedByVisitId,
isExpired (default false); unique index on (property, date, startTime). -/
structure Slot where
  sid : Nat
  property : Nat
  date : Nat
  startTime : Nat
  endTime : Nat
  createdBy : Nat
  isBooked : Bool
  bookedByVisitId : Option Nat
  isExpired : Bool
deriving Repr, DecidableEq

/-- Status strings of a VisitRequest as used anywhere in the routes. -/
inductive VStatus
  | pending
  | approved
  | rejected
  | visited
  | notVisited
deriving Repr, DecidableEq

/-- The `enum` on `visitRequestSchema.status` in models/VisitRequest.js
line 8: only 'pending', 'approved', 'rejected' pass mongoose validation;
'visited' and 'not visited' are not in the enum. -/
def statusEnumOk : VStatus → Bool
  | .pending => true
  | .approved => true
  | .rejected => true
  | .visited => false
  | .notVisited => false

/-- VisitRequest document (models/VisitRequest.js). -/
structure Visit where
  vid : Nat
  property : Nat
  requester : Nat
  recipient : Nat
  scheduledAt : Nat
  note : String
  status : VStatus
deriving Repr, DecidableEq

/-- UnavailableDate document (models/UnavailableDate.js): a blackout
date for a property, unique per (property, date). -/
structure Blackout where
  property : Nat
  date : Nat
  createdBy : Nat
deriving Repr, DecidableEq

/-- The parts of a Property document the visit routes consult:
`property.agent || property.createdBy` chooses the recipient. -/
structure PropertyDoc where
  pid : Nat
  agent : Option Nat
  createdBy : Nat
deriving Repr, DecidableEq

/-- The single logical data store behind the routes.  `nextVid` and
`nextSid` model MongoDB's generation of fresh `_id`s on insert. -/
structure Store where
  props : List PropertyDoc
  slots : List Slot
  visits : List Visit
  blackouts : List Blackout
  nextVid : Nat
  nextSid : Nat
deriving Repr, DecidableEq

/-- Embeds `Property.findById(propertyId)`. -/
def findProperty (st : Store) (pid : Nat) : Option PropertyDoc :=
  st.props.find? (fun p => p.pid == pid)

/-- Embeds `VisitRequest.findById(id)`. -/
def findVisit (st : Store) (vid : Nat) : Option Visit :=
  st.visits.find? (fun v => v.vid == vid)

/-- Embeds `UnavailableDate.findOne({ property, date })` as a Bool. -/
def isUnavailable (st : Store) (pid date : Nat) : Bool :=
  st.blackouts.any (fun b => b.property == pid && b.date == date)

/-- Embeds the booking handler's slot lookup
`VisitSlot.findOne({ property, date, startTime, isBooked: false })`.
Note the filter does not mention `isExpired`. -/
def findOpenSlot (st : Store) (pid date hm : Nat) : Option Slot :=
  st.slots.find? (fun s =>
    s.property == pid && s.date == date && s.startTime == hm && s.isBooked == false)

/-- Embeds `slot.isBooked = true; slot.bookedByVisitId = visit._id;
await slot.save()` for the slot with id `sid`. -/
def updateSlotBooked (slots : List Slot) (sid vid : Nat) : List Slot :=
  slots.map (fun s =>
    if s.sid == sid then { s with isBooked := true, bookedByVisitId := some vid } else s)

/-- Response branches of `POST /visits` (create visit request handler). -/
inductive BookRes
  | notFound
  | pastTime
  | outOfHorizon
  | dateUnavailable
  | notAvailable
  | slotPassed
  | created (vid : Nat)
deriving Repr, DecidableEq

/-- Embeds the `POST /visits` handler (the slot-aware version of the
create-visit route): past-time check, 30-day horizon check, blackout
check, open-slot lookup, the extra same-day guard, then creation of the
pending VisitRequest followed by marking the located slot booked. -/
def bookVisit (st : Store) (now requester pid scheduledAt : Nat) (note : String) :
    BookRes × Store :=
  match findProperty st pid with
  | none => (.notFound, st)
  | some prop =>
    if scheduledAt ≤ now then (.pastTime, st)
    else
      let ymd := dayOf scheduledAt
      let hm := minOfDay scheduledAt
      let today := dayOf now
      let maxDate := dayOf (now + 30 * secPerDay)
      if ymd < today then (.outOfHorizon, st)
      else if maxDate < ymd then (.outOfHorizon, st)
      else if isUnavailable st pid ymd then (.dateUnavailable, st)
      else
        match findOpenSlot st pid ymd hm with
        | none => (.notAvailable, st)
        | some slot =>
          if ymd == today && today * secPerDay + slot.startTime * 60 ≤ now then
            (.slotPassed, st)
          else
            let recipient := prop.agent.getD prop.createdBy
            let visit : Visit :=
              { vid := st.nextVid, property := pid, requester := requester,
                recipient := recipient, scheduledAt := scheduledAt,
                note := note, status := .pending }
            (.created visit.vid,
              { st with
                  visits := st.visits ++ [visit],
                  nextVid := st.nextVid + 1,
                  slots := updateSlotBooked st.slots slot.sid visit.vid })

/-- Store after overwriting the stored document whose id is `v.vid`
with `v`, as a successful `save()` does. -/
def savedVisitStore (st : Store) (v : Visit) : Store :=
  { st with visits := st.visits.map (fun w => if w.vid == v.vid then v else w) }

/-- Embeds `visit.<fields> = ...; await visit.save()`: mongoose runs the
schema validators on save, so a status outside the enum of
models/VisitRequest.js makes `save()` throw (the handler's catch block
then answers 500) and the store is not written. -/
def trySaveVisit (st : Store) (v : Visit) : Option Store :=
  if statusEnumOk v.status then some (savedVisitStore st v) else none

/-- Response branches of `PUT /visits/:id/status` (approve/reject). -/
inductive StatusRes
  | invalidStatus
  | notFoundV
  | notAuthorized
  | serverError
  | okUpdated
deriving Repr, DecidableEq

/-- Embeds the `PUT /visits/:id/status` handler: accepts only
'approved'/'rejected', requires the caller to be the recipient, then
sets the status unconditionally (no check of the current status). -/
def setStatus (st : Store) (caller vid : Nat) (status : VStatus) : StatusRes × Store :=
  if !(status == VStatus.approved || status == VStatus.rejected) then (.invalidStatus, st)
  else
    match findVisit st vid with
    | none => (.notFoundV, st)
    | some v =>
      if v.recipient ≠ caller then (.notAuthorized, st)
      else
        match trySaveVisit st { v with status := status } with
        | some st2 => (.okUpdated, st2)
        | none => (.serverError, st)

/-- Response branches of `PUT /visits/:id/visit-status`. -/
inductive VisitStatusRes
  | invalidStatus
  | notFoundV
  | notAuthorized
  | tooEarly
  | notApproved
  | serverError
  | okUpdated
deriving Repr, DecidableEq

/-- Embeds the `PUT /visits/:id/visit-status` handler: accepts only
'visited'/'not visited', requires the caller to be the recipient,
rejects while `scheduledAt > now` ("Cannot update visit status before
the scheduled time"), requires current status 'approved', then assigns
the status and saves — where mongoose's enum validation applies. -/
def visitStatusUpdate (st : Store) (now caller vid : Nat) (status : VStatus) :
    VisitStatusRes × Store :=
  if !(status == VStatus.visited || status == VStatus.notVisited) then (.invalidStatus, st)
  else
    match findVisit st vid with
    | none => (.notFoundV, st)
    | some v =>
      if v.recipient ≠ caller then (.notAuthorized, st)
      else if now < v.scheduledAt then (.tooEarly, st)
      else if v.status ≠ VStatus.approved then (.notApproved, st)
      else
        match trySaveVisit st { v with status := status } with
        | some st2 => (.okUpdated, st2)
        | none => (.serverError, st)

/-- Response branches of `PUT /visits/:id/reschedule`. -/
inductive ReschedRes
  | notFoundV
  | notAuthorized
  | serverError
  | okResched
deriving Repr, DecidableEq

/-- Embeds the `PUT /visits/:id/reschedule` handler (requester
reschedule): requires the caller to be the requester, then sets the new
`scheduledAt`, resets status to 'pending', optionally replaces the note
— with no past-time, horizon, blackout or slot check of any kind. -/
def reschedule (st : Store) (caller vid scheduledAt : Nat) (note : Option String) :
    ReschedRes × Store :=
  match findVisit st vid with
  | none => (.notFoundV, st)
  | some v =>
    if v.requester ≠ caller then (.notAuthorized, st)
    else
      match trySaveVisit st
        { v with scheduledAt := scheduledAt, status := .pending,
                 note := note.getD v.note } with
      | some st2 => (.okResched, st2)
      | none => (.serverError, st)

/-- Response branches of `PUT /visits/:id/recipient-reschedule`. -/
inductive RReschedRes
  | notFoundV
  | notAuthorized
  | notApproved
  | serverError
  | okResched
deriving Repr, DecidableEq

/-- Embeds the `PUT /visits/:id/recipient-reschedule` handler: requires
the caller to be the recipient and the current status to be 'approved',
then changes `scheduledAt` only. -/
def recipientReschedule (st : Store) (caller vid scheduledAt : Nat) :
    RReschedRes × Store :=
  match findVisit st vid with
  | none => (.notFoundV, st)
  | some v =>
    if v.recipient ≠ caller then (.notAuthorized, st)
    else if v.status ≠ VStatus.approved then (.notApproved, st)
    else
      match trySaveVisit st { v with scheduledAt := scheduledAt } with
      | some st2 => (.okResched, st2)
      | none => (.serverError, st)

/-- Response branches of `DELETE /visits/:id` (requester cancel). -/
inductive CancelRes
  | notFoundV
  | notAuthorized
  | serverError
  | okCancelled
deriving Repr, DecidableEq

/-- Embeds the `DELETE /visits/:id` handler: requires the caller to be
the requester, then sets status to 'rejected' unconditionally (the
current status is never consulted). -/
def cancelVisit (st : Store) (caller vid : Nat) : CancelRes × Store :=
  match findVisit st vid with
  | none => (.notFoundV, st)
  | some v =>
    if v.requester ≠ caller then (.notAuthorized, st)
    else
      match trySaveVisit st { v with status := .rejected } with
      | some st2 => (.okCancelled, st2)
      | none => (.serverError, st)

/-- End instant of a slot, embedding the sweeper's
`new Date(`${s.date}T${s.endTime}:00`)`. -/
def endInstant (s : Slot) : Nat := s.date * secPerDay + s.endTime * 60

/-- Embeds the `markExpiredSlots` sweep: read the candidates with
`{ isExpired: false, isBooked: false }`, collect the ids whose end
instant has passed, then `updateMany({ _id: { $in: ids } },
{ $set: { isExpired: true } })` — the write is keyed by id only. -/
def markExpiredSlots (st : Store) (now : Nat) : Store :=
  let candidates := st.slots.filter (fun s => s.isExpired == false && s.isBooked == false)
  let toExpireIds := (candidates.filter (fun s => endInstant s ≤ now)).map (fun s => s.sid)
  { st with slots := st.slots.map (fun s =>
      if toExpireIds.contains s.sid then { s with isExpired := true } else s) }

/-- Embeds the `cleanupExpiredSlots` pass of index.js:
`VisitSlot.deleteMany({ $or: [ { date: { $lt: currentDate } },
{ date: currentDate, startTime: { $lt: currentTime } } ] })`.
The delete filter has no `isBooked` condition. -/
def cleanupExpiredSlots (st : Store) (now : Nat) : Store :=
  let currentDate := dayOf now
  let currentTime := minOfDay now
  { st with slots := st.slots.filter (fun s =>
      !(s.date < currentDate || (s.date == currentDate && s.startTime < currentTime))) }

/-- End time of a half-hour slot, embedding
`endH = m + 30 >= 60 ? h + 1 : h; endM = (m + 30) % 60` applied to a
start time in minutes of the day. -/
def endOf (t : Nat) : Nat :=
  (if t % 60 + 30 ≥ 60 then t / 60 + 1 else t / 60) * 60 + (t % 60 + 30) % 60

/-- Loop body of the `POST /visits/slots` handler over `times[]`.  For
each candidate start: if the date is today and
`h < currentHour || (h === currentHour && m < currentMinute + 10)` the
time is skipped; a duplicate (property, date, startTime) key makes
`VisitSlot.create` throw on the unique index and is skipped; otherwise
the slot is inserted.  Returns (created, slots, next fresh id). -/
def createSlotsLoop (uid pid d currentHour currentMinute : Nat) (isToday : Bool) :
    List Nat → List Slot → Nat → List Slot × List Slot × Nat
  | [], slots, nsid => ([], slots, nsid)
  | t :: ts, slots, nsid =>
    let h := t / 60
    let m := t % 60
    if isToday && (h < currentHour || (h == currentHour && m < currentMinute + 10)) then
      createSlotsLoop uid pid d currentHour currentMinute isToday ts slots nsid
    else if slots.any (fun s => s.property == pid && s.date == d && s.startTime == t) then
      createSlotsLoop uid pid d currentHour currentMinute isToday ts slots nsid
    else
      let sl : Slot :=
        { sid := nsid, property := pid, date := d, startTime := t, endTime := endOf t,
          createdBy := uid, isBooked := false, bookedByVisitId := none, isExpired := false }
      let rest := createSlotsLoop uid pid d currentHour currentMinute isToday ts
        (slots ++ [sl]) (nsid + 1)
      (sl :: rest.1, rest.2.1, rest.2.2)

/-- Response branches of `POST /visits/slots`. -/
inductive SlotsRes
  | notFoundP
  | pastDate
  | outOfHorizonS
  | createdS (created : List Slot)
deriving Repr, DecidableEq

/-- Embeds the `POST /visits/slots` handler: rejects past dates and
dates beyond today+30d wholesale, then runs the per-time loop with
`currentHour = now.getHours()` and `currentMinute = now.getMinutes()`. -/
def createSlots (st : Store) (now uid pid d : Nat) (times : List Nat) :
    SlotsRes × Store :=
  match findProperty st pid with
  | none => (.notFoundP, st)
  | some _ =>
    let today := dayOf now
    let maxDate := dayOf (now + 30 * secPerDay)
    if d < today then (.pastDate, st)
    else if maxDate < d then (.outOfHorizonS, st)
    else
      let r := createSlotsLoop uid pid d (hourOf now) (minuteOf now) (d == today)
        times st.slots st.nextSid
      (.createdS r.1, { st with slots := r.2.1, nextSid := r.2.2 })

/-- Response branches of `DELETE /visits/slots/:slotId`. -/
inductive DelSlotRes
  | notFoundS
  | bookedConflict
  | okDeleted
deriving Repr, DecidableEq

/-- Embeds the `DELETE /visits/slots/:slotId` handler: 404 when absent,
400 when the slot is booked, otherwise removes the slot. -/
def deleteSlot (st : Store) (sid : Nat) : DelSlotRes × Store :=
  match st.slots.find? (fun s => s.sid == sid) with
  | none => (.notFoundS, st)
  | some s =>
    if s.isBooked then (.bookedConflict, st)
    else (.okDeleted, { st with slots := st.slots.filter (fun t => !(t.sid == sid)) })

/-- Embeds the blackout upsert `UnavailableDate.findOneAndUpdate(
{ property, date }, {...}, { upsert: true })`. -/
def upsertBlackout (bs : List Blackout) (pid d uid : Nat) : List Blackout :=
  if bs.any (fun b => b.property == pid && b.date == d) then
    bs.map (fun b =>
      if b.property == pid && b.date == d then
        { property := pid, date := d, createdBy := uid } else b)
  else bs ++ [{ property := pid, date := d, createdBy := uid }]

/-- Response branches of `POST /visits/unavailable`. -/
inductive UnavailRes
  | notFoundP
  | outOfHorizonU
  | createdU
deriving Repr, DecidableEq

/-- Embeds the `POST /visits/unavailable` handler: horizon check, then
the blackout upsert followed by
`VisitSlot.deleteMany({ property, date, isBooked: false })`. -/
def markUnavailable (st : Store) (now uid pid d : Nat) : UnavailRes × Store :=
  match findProperty st pid with
  | none => (.notFoundP, st)
  | some _ =>
    let today := dayOf now
    let maxDate := dayOf (now + 30 * secPerDay)
    if d < today then (.outOfHorizonU, st)
    else if maxDate < d then (.outOfHorizonU, st)
    else
      (.createdU,
        { st with
            blackouts := upsertBlackout st.blackouts pid d uid,
            slots := st.slots.filter (fun s =>
              !(s.property == pid && s.date == d && s.isBooked == false)) })

/-- Embeds the slot query of `GET /visits/availability/:propertyId`:
slots of the property in the window [today, today+30d] with
`isBooked: false` and `$or: [date > today, (date = today ∧ startTime >
current HH:mm)]`.  (This route's query does not filter `isExpired`.) -/
def availQuery (st : Store) (now pid : Nat) : List Slot :=
  let start := dayOf now
  let stop := dayOf (now + 30 * secPerDay)
  let curMin := minOfDay now
  st.slots.filter (fun s =>
    s.property == pid && start ≤ s.date && s.date ≤ stop && s.isBooked == false &&
      (start < s.date || (s.date == start && curMin < s.startTime)))

/-- Embeds the grouping loop of the availability handler, which skips
any slot whose date is in the blackout set fetched for the window; the
surviving slots are exactly the route's output (grouping by date and
sorting do not change which slots appear). -/
def availableSlots (st : Store) (now pid : Nat) : List Slot :=
  let start := dayOf now
  let stop := dayOf (now + 30 * secPerDay)
  (availQuery st now pid).filter (fun s =>
    !(st.blackouts.any (fun b =>
      b.property == pid && start ≤ b.date && b.date ≤ stop && b.date == s.date)))

/-- Read phase of the booking handler: everything the handler does
before its first write, i.e. the property lookup, the validations, the
`findOne` slot lookup and the same-day guard.  Returns the located
slot's id and the chosen recipient when the handler will proceed to its
writes.  Each `await` in the source is a scheduling point, so another
request can run between this phase and the write phase. -/
def bookReadPhase (st : Store) (now pid scheduledAt : Nat) : Option (Nat × Nat) :=
  match findProperty st pid with
  | none => none
  | some prop =>
    if scheduledAt ≤ now then none
    else
      let ymd := dayOf scheduledAt
      let hm := minOfDay scheduledAt
      let today := dayOf now
      let maxDate := dayOf (now + 30 * secPerDay)
      if ymd < today then none
      else if maxDate < ymd then none
      else if isUnavailable st pid ymd then none
      else
        match findOpenSlot st pid ymd hm with
        | none => none
        | some slot =>
          if ymd == today && today * secPerDay + slot.startTime * 60 ≤ now then none
          else some (slot.sid, prop.agent.getD prop.createdBy)

/-- Write phase of the booking handler: `VisitRequest.create(...)`
followed by `slot.save()` on the slot located by the read phase.  The
source re-checks nothing here; both writes succeed regardless of what
happened to the slot since the read. -/
def bookWritePhase (st : Store) (requester pid scheduledAt : Nat) (note : String)
    (slotSid recipient : Nat) : Nat × Store :=
  let visit : Visit :=
    { vid := st.nextVid, property := pid, requester := requester,
      recipient := recipient, scheduledAt := scheduledAt,
      note := note, status := .pending }
  (visit.vid,
    { st with
        visits := st.visits ++ [visit],
        nextVid := st.nextVid + 1,
        slots := updateSlotBooked st.slots slotSid visit.vid })

/-- Interleaved execution of two booking requests in the order
read₁, read₂, write₁, write₂ — the schedule the event loop produces
when both requests pass their awaited reads before either write runs.
Returns the two created visit ids and the final store when both
requests reach their write phase (both handlers then answer 201). -/
def interleavedDoubleBook (st : Store) (now u1 u2 pid t1 t2 : Nat) :
    Option (Nat × Nat × Store) :=
  match bookReadPhase st now pid t1, bookReadPhase st now pid t2 with
  | some r1, some r2 =>
    let w1 := bookWritePhase st u1 pid t1 "" r1.1 r1.2
    let w2 := bookWritePhase w1.2 u2 pid t2 "" r2.1 r2.2
    some (w1.1, w2.1, w2.2)
  | _, _ => none

/-- Sample property used by the concrete scenarios below. -/
def prop1 : PropertyDoc := { pid := 1, agent := some 9, createdBy := 9 }

/-- One open (unbooked, unexpired) slot for property 1 on day 3 at
09:00–09:30. -/
def openSlot1 : Slot :=
  { sid := 1, property := 1, date := 3, startTime := 540, endTime := 570,
    createdBy := 9, isBooked := false, bookedByVisitId := none, isExpired := false }

/-- Store holding exactly one open slot for the key (1, day 3, 09:00). -/
def raceStore : Store :=
  { props := [prop1], slots := [openSlot1], visits := [], blackouts := [],
    nextVid := 0, nextSid := 2 }

/-- Current instant for the race scenario: day 2, 10:00:00. -/
def raceNow : Nat := mkInstant 2 10 0 0

/-- Requested visit instant for the race scenario: day 3, 09:00:00. -/
def raceAt : Nat := mkInstant 3 9 0 0

/-- Store for the sweeper scenario: a booked slot (with visit
back-reference) for day 0 at 09:00–09:30. -/
def bookedPastSlot : Slot :=
  { sid := 1, property := 1, date := 0, startTime := 540, endTime := 570,
    createdBy := 9, isBooked := true, bookedByVisitId := some 0, isExpired := false }

/-- Store holding only the booked day-0 slot. -/
def sweepStore : Store :=
  { props := [prop1], slots := [bookedPastSlot], visits := [], blackouts := [],
    nextVid := 1, nextSid := 2 }

/-- Approved visit for the visit-status scenario: scheduled for day 10
at 09:00, requester 7, recipient 5. -/
def approvedVisit : Visit :=
  { vid := 1, property := 1, requester := 7, recipient := 5,
    scheduledAt := mkInstant 10 9 0 0, note := "", status := .approved }

/-- Store holding the approved visit. -/
def visitStore : Store :=
  { props := [prop1], slots := [], visits := [approvedVisit], blackouts := [],
    nextVid := 2, nextSid := 1 }

/-- Store with property 1 and no slots, for the slot-creation buffer
scenario. -/
def bufStore : Store :=
  { props := [prop1], slots := [], visits := [], blackouts := [],
    nextVid := 0, nextSid := 0 }

/-- Clock for the buffer scenario: day 5, 09:55:00. -/
def bufNow : Nat := mkInstant 5 9 55 0

/-- Slot at the key (1, day 3, 09:00) that is unbooked but already
marked expired by the sweeper. -/
def expiredSlot1 : Slot :=
  { sid := 1, property := 1, date := 3, startTime := 540, endTime := 570,
    createdBy := 9, isBooked := false, bookedByVisitId := none, isExpired := true }

/-- Store whose only slot at the requested key has `isExpired = true`. -/
def expiredStore : Store :=
  { props := [prop1], slots := [expiredSlot1], visits := [], blackouts := [],
    nextVid := 0, nextSid := 2 }

/-- Visit already in the terminal state 'rejected'. -/
def rejectedVisit : Visit :=
  { vid := 1, property := 1, requester := 7, recipient := 5,
    scheduledAt := mkInstant 10 9 0 0, note := "", status := .rejected }

/-- Store holding only the rejected visit. -/
def rejectedStore : Store :=
  { props := [prop1], slots := [], visits := [rejectedVisit], blackouts := [],
    nextVid := 2, nextSid := 1 }

/-- A booked slot on day 3 at 10:00, same property and date as
`openSlot1`. -/
def bookedSlot3 : Slot :=
  { sid := 2, property := 1, date := 3, startTime := 600, endTime := 630,
    createdBy := 9, isBooked := true, bookedByVisitId := some 0, isExpired := false }

/-- Store with one open and one booked slot for (property 1, day 3). -/
def mixedStore : Store :=
  { props := [prop1], slots := [openSlot1, bookedSlot3], visits := [], blackouts := [],
    nextVid := 1, nextSid := 3 }

/-- C1: against a store with exactly one open slot for the key, the
schedule read₁, read₂, write₁, write₂ (both handlers pass their awaited
`findOne` before either write) makes BOTH `POST /visits` calls succeed:
two pending VisitRequests exist afterwards for requesters 7 and 8, and
both handlers answered 201.  The claim that one of the two concurrent
calls must fail with NotAvailable is false for this read-then-write
implementation; serial execution (second conjunct) does give the
claimed NotAvailable. -/
theorem book_race_both_succeed :
    (interleavedDoubleBook raceStore raceNow 7 8 1 raceAt raceAt).map
        (fun r => (r.2.2.visits.map Visit.requester, r.2.2.visits.map Visit.status,
                   r.2.2.slots.map Slot.isBooked))
      = some ([7, 8], [.pending, .pending], [true]) ∧
    (bookVisit (bookVisit raceStore raceNow 7 1 raceAt "").2 raceNow 8 1 raceAt "").1
      = .notAvailable := by decide

/-- C3: the hard-delete sweeper pass (`cleanupExpiredSlots` of index.js)
run on day 1 at 12:00 deletes the booked day-0 slot — its `deleteMany`
filter has no `isBooked: false` condition — so the sweep does not
preserve booked slots.  (The marking sweep `markExpiredSlots` does
leave this booked slot untouched, third conjunct.) -/
theorem cleanup_deletes_booked_slot :
    bookedPastSlot.isBooked = true ∧
    (cleanupExpiredSlots sweepStore (mkInstant 1 12 0 0)).slots = [] ∧
    (markExpiredSlots sweepStore (mkInstant 1 12 0 0)).slots = [bookedPastSlot] := by
  decide

/-- C4: before `scheduledAt` the recipient's visit-status call fails
with the "too early" validation error and leaves the store unchanged —
that half of the claim holds.  But once `now ≥ scheduledAt` the call
does NOT succeed: the handler assigns 'visited' / 'not visited', and
`visitRequestSchema.status`'s enum ('pending', 'approved', 'rejected')
makes `save()` throw, so the handler answers 500 and the visit is never
marked visited. -/
theorem visitStatus_enum_never_succeeds :
    visitStatusUpdate visitStore (mkInstant 10 8 0 0) 5 1 .visited = (.tooEarly, visitStore) ∧
    visitStatusUpdate visitStore (mkInstant 10 9 0 0) 5 1 .visited = (.serverError, visitStore) ∧
    visitStatusUpdate visitStore (mkInstant 10 9 0 0) 5 1 .notVisited
      = (.serverError, visitStore) := by decide

/-- C8: at 09:55, creating a slot for today at 10:00 — only 5 minutes
ahead, as the second conjunct records — is NOT skipped: the check
`h < currentHour || (h === currentHour && m < currentMinute + 10)`
never fires for a time in the next hour, so the slot is created, against
the buffer rule (and the handler's own comments).  Within the same hour
the rule does fire (third conjunct: 09:59 is skipped). -/
theorem createSlots_buffer_misses_next_hour :
    (createSlots bufStore bufNow 9 1 5 [600]).1
      = .createdS [{ sid := 0, property := 1, date := 5, startTime := 600,
                     endTime := 630, createdBy := 9, isBooked := false,
                     bookedByVisitId := none, isExpired := false }] ∧
    mkInstant 5 10 0 0 < bufNow + 10 * 60 ∧
    (createSlots bufStore bufNow 9 1 5 [599]).1 = .createdS [] := by decide

/-- C2 counterexample: the only slot matching the requested key has
`expired = true` (and `booked = false`), yet `POST /visits` succeeds
and creates a VisitRequest — the slot lookup
`findOne({ property, date, startTime, isBooked: false })` never
consults the expired flag.  The claim that the call fails NotAvailable
when the only matching slot is expired is false. -/
theorem book_succeeds_on_expired_slot :
    expiredStore.slots.all (fun s => s.isExpired) = true ∧
    (bookVisit expiredStore raceNow 7 1 raceAt "").1 = .created 0 ∧
    (bookVisit expiredStore raceNow 7 1 raceAt "").2.visits.map Visit.status
      = [.pending] := by decide

/-- C2 amended: when the property exists and the past-time, horizon and
blackout checks pass, the booking outcome is decided by the lookup on
`booked = false` alone (expired is ignored), plus the same-day guard:
no unbooked slot at the key gives NotAvailable with the store unwritten;
an unbooked slot at the key gives success, unless the date is today and
the slot's start minute is not strictly after `now`, which gives the
"already passed" failure. -/
theorem book_outcome_ignores_expired
    (st : Store) (now requester pid scheduledAt : Nat) (note : String)
    (hp : (findProperty st pid).isSome)
    (hfuture : now < scheduledAt)
    (hmax : ¬ dayOf (now + 30 * secPerDay) < dayOf scheduledAt)
    (hb : isUnavailable st pid (dayOf scheduledAt) = false) :
    ((∀ s ∈ st.slots, ¬(s.property = pid ∧ s.date = dayOf scheduledAt ∧
        s.startTime = minOfDay scheduledAt ∧ s.isBooked = false)) →
      bookVisit st now requester pid scheduledAt note = (.notAvailable, st)) ∧
    (∀ s ∈ st.slots, s.property = pid → s.date = dayOf scheduledAt →
        s.startTime = minOfDay scheduledAt → s.isBooked = false →
      (¬(dayOf scheduledAt = dayOf now ∧
          dayOf now * secPerDay + minOfDay scheduledAt * 60 ≤ now) →
        (bookVisit st now requester pid scheduledAt note).1 = .created st.nextVid) ∧
      ((dayOf scheduledAt = dayOf now ∧
          dayOf now * secPerDay + minOfDay scheduledAt * 60 ≤ now) →
        (bookVisit st now requester pid scheduledAt note).1 = .slotPassed)) := by
  obtain ⟨prop, hfp⟩ := Option.isSome_iff_exists.mp hp
  have hnotpast : ¬ scheduledAt ≤ now := Nat.not_le.mpr hfuture
  have hmin : ¬ dayOf scheduledAt < dayOf now :=
    Nat.not_lt.mpr (Nat.div_le_div_right (Nat.le_of_lt hfuture))
  have hbneg : ¬ (isUnavailable st pid (dayOf scheduledAt) = true) := by simp [hb]
  constructor
  · intro hnone
    have hfind : findOpenSlot st pid (dayOf scheduledAt) (minOfDay scheduledAt) = none := by
      apply List.find?_eq_none.mpr
      intro s hs
      have hn := hnone s hs
      simp only [Bool.and_eq_true, beq_iff_eq]
      intro hcontra
      exact hn ⟨hcontra.1.1.1, hcontra.1.1.2, hcontra.1.2, hcontra.2⟩
    simp only [bookVisit, hfp, hfind]
    rw [if_neg hnotpast, if_neg hmin, if_neg hmax, if_neg hbneg]
  · intro s hs h1 h2 h3 h4
    cases hfo : findOpenSlot st pid (dayOf scheduledAt) (minOfDay scheduledAt) with
    | none =>
      exfalso
      have hn := List.find?_eq_none.mp hfo s hs
      apply hn
      simp [h1, h2, h3, h4]
    | some s2 =>
      have hpred := List.find?_some hfo
      simp only [Bool.and_eq_true, beq_iff_eq] at hpred
      have hstart : s2.startTime = minOfDay scheduledAt := hpred.1.2
      constructor
      · intro hng
        have hcond : ¬ ((dayOf scheduledAt == dayOf now &&
            decide (dayOf now * secPerDay + s2.startTime * 60 ≤ now)) = true) := by
          simp only [Bool.and_eq_true, beq_iff_eq, decide_eq_true_eq, hstart]
          exact hng
        simp only [bookVisit, hfp, hfo]
        rw [if_neg hnotpast, if_neg hmin, if_neg hmax, if_neg hbneg, if_neg hcond]
      · intro hg
        have hcond : (dayOf scheduledAt == dayOf now &&
            decide (dayOf now * secPerDay + s2.startTime * 60 ≤ now)) = true := by
          simp only [Bool.and_eq_true, beq_iff_eq, decide_eq_true_eq, hstart]
          exact hg
        simp only [bookVisit, hfp, hfo]
        rw [if_neg hnotpast, if_neg hmin, if_neg hmax, if_neg hbneg, if_pos hcond]

/-- Replacing, in a list, every element satisfying `p` by images that
still satisfy `p`, while fixing the elements that do not satisfy `p`,
maps the first `p`-match to its image. -/
theorem find_map_update {α : Type} (p : α → Bool) (f : α → α) :
    ∀ (l : List α) (a : α), l.find? p = some a →
      (∀ x, p x = false → f x = x) → (∀ x, p x = true → p (f x) = true) →
      (l.map f).find? p = some (f a) := by
  intro l
  induction l with
  | nil => intro a h _ _; simp [List.find?] at h
  | cons x xs ih =>
    intro a h hfix hkeep
    cases hp : p x with
    | true =>
      rw [List.find?_cons_of_pos _ hp] at h
      cases h
      simp only [List.map_cons]
      rw [List.find?_cons_of_pos _ (hkeep x hp)]
    | false =>
      rw [List.find?_cons_of_neg _ (by simp [hp])] at h
      simp only [List.map_cons]
      rw [hfix x hp, List.find?_cons_of_neg _ (by simp [hp])]
      exact ih a h hfix hkeep

/-- A successful `visit.save()` does not touch the slots collection. -/
theorem trySaveVisit_slots (st st2 : Store) (v : Visit)
    (h : trySaveVisit st v = some st2) : st2.slots = st.slots := by
  unfold trySaveVisit at h
  by_cases he : statusEnumOk v.status = true
  · rw [if_pos he] at h
    cases h
    rfl
  · rw [if_neg he] at h
    cases h

/-- After a successful save keyed on the visit's id, looking the id up
returns the saved document. -/
theorem findVisit_trySave (st st2 : Store) (vid : Nat) (v v2 : Visit)
    (h : findVisit st vid = some v) (hv : v2.vid = vid)
    (hsave : trySaveVisit st v2 = some st2) :
    findVisit st2 vid = some v2 := by
  unfold trySaveVisit at hsave
  by_cases he : statusEnumOk v2.status = true
  · rw [if_pos he] at hsave
    cases hsave
    have h2 : st.visits.find? (fun w : Visit => w.vid == vid) = some v := h
    have hpv := List.find?_some h2
    have hres := find_map_update (fun w : Visit => w.vid == vid)
      (fun w : Visit => if w.vid == v2.vid then v2 else w) st.visits v h2
      (fun x hx => by
        simp only [beq_iff_eq] at hx
        simp [hv, hx])
      (fun x hx => by
        simp only [beq_iff_eq] at hx ⊢
        simp [hx, hv])
    unfold findVisit savedVisitStore
    rw [hres]
    simp only [beq_iff_eq] at hpv
    simp [hpv, hv]
  · rw [if_neg he] at hsave
    cases hsave

/-- The cancel handler never writes the slots collection. -/
theorem cancelVisit_slots_eq (st : Store) (caller vid : Nat) :
    (cancelVisit st caller vid).2.slots = st.slots := by
  unfold cancelVisit
  cases hfv : findVisit st vid with
  | none => rfl
  | some v =>
    dsimp only
    by_cases ha : v.requester ≠ caller
    · rw [if_pos ha]
    · rw [if_neg ha]
      cases hs : trySaveVisit st { v with status := .rejected } with
      | none => rfl
      | some st2 => exact trySaveVisit_slots st st2 _ hs

/-- The approve/reject handler never writes the slots collection. -/
theorem setStatus_slots_eq (st : Store) (caller vid : Nat) (s : VStatus) :
    (setStatus st caller vid s).2.slots = st.slots := by
  unfold setStatus
  by_cases hval : (!(s == VStatus.approved || s == VStatus.rejected)) = true
  · rw [if_pos hval]
  · rw [if_neg hval]
    cases hfv : findVisit st vid with
    | none => rfl
    | some v =>
      dsimp only
      by_cases ha : v.recipient ≠ caller
      · rw [if_pos ha]
      · rw [if_neg ha]
        cases hs : trySaveVisit st { v with status := s } with
        | none => rfl
        | some st2 => exact trySaveVisit_slots st st2 _ hs

/-- The requester-reschedule handler never writes the slots
collection. -/
theorem reschedule_slots_eq (st : Store) (caller vid t : Nat) (note : Option String) :
    (reschedule st caller vid t note).2.slots = st.slots := by
  unfold reschedule
  cases hfv : findVisit st vid with
  | none => rfl
  | some v =>
    dsimp only
    by_cases ha : v.requester ≠ caller
    · rw [if_pos ha]
    · rw [if_neg ha]
      cases hs : trySaveVisit st
        { v with scheduledAt := t, status := .pending, note := note.getD v.note } with
      | none => rfl
      | some st2 => exact trySaveVisit_slots st st2 _ hs

/-- A 201 from the booking handler requires the open-slot lookup to
have found a slot. -/
theorem bookVisit_created_open (st : Store) (now requester pid scheduledAt : Nat)
    (note : String) (n : Nat)
    (hcr : (bookVisit st now requester pid scheduledAt note).1 = .created n) :
    ∃ s, findOpenSlot st pid (dayOf scheduledAt) (minOfDay scheduledAt) = some s := by
  simp only [bookVisit] at hcr
  repeat' split at hcr
  all_goals first
    | exact ⟨_, by assumption⟩
    | simp at hcr

/-- C5: when `POST /visits/unavailable` succeeds for (property, date),
every open slot (`booked = false`, `expired = false`) of that property
and date is gone from the store, while every booked slot of the store —
in particular of that property and date — is still present with all its
fields unchanged (the delete filter is `{ property, date,
isBooked: false }`). -/
theorem blackout_removes_open_keeps_booked
    (st : Store) (now uid pid d : Nat)
    (hok : (markUnavailable st now uid pid d).1 = .createdU) :
    (∀ s ∈ st.slots, s.property = pid → s.date = d → s.isBooked = false →
        s.isExpired = false → s ∉ (markUnavailable st now uid pid d).2.slots) ∧
    (∀ s ∈ st.slots, s.isBooked = true → s ∈ (markUnavailable st now uid pid d).2.slots) := by
  cases hfp : findProperty st pid with
  | none =>
    simp only [markUnavailable, hfp] at hok
    cases hok
  | some p =>
    simp only [markUnavailable, hfp] at hok ⊢
    by_cases h1 : d < dayOf now
    · rw [if_pos h1] at hok
      simp at hok
    · rw [if_neg h1] at hok ⊢
      by_cases h2 : dayOf (now + 30 * secPerDay) < d
      · rw [if_pos h2] at hok
        simp at hok
      · rw [if_neg h2]
        constructor
        · intro s hs e1 e2 e3 _ hmem
          have hm := (List.mem_filter.mp hmem).2
          simp only [e1, e2, e3, beq_self_eq_true, Bool.and_self, Bool.not_true] at hm
          cases hm
        · intro s hs hb
          refine List.mem_filter.mpr ⟨hs, ?_⟩
          simp [hb]

/-- C5 witness: marking (property 1, day 3) unavailable in a store with
one open and one booked slot for that key removes the open slot and
keeps the booked one. -/
theorem blackout_removes_open_keeps_booked_witness :
    openSlot1 ∉ (markUnavailable mixedStore raceNow 9 1 3).2.slots ∧
    bookedSlot3 ∈ (markUnavailable mixedStore raceNow 9 1 3).2.slots :=
  ⟨(blackout_removes_open_keeps_booked mixedStore raceNow 9 1 3 (by decide)).1
      openSlot1 (by decide) (by decide) (by decide) (by decide) (by decide),
    (blackout_removes_open_keeps_booked mixedStore raceNow 9 1 3 (by decide)).2
      bookedSlot3 (by decide) (by decide)⟩

/-- C6: every slot in the availability output has a date that is not
blacked out for the property, and when its date is today its start
minute is strictly later than the current minute (the query demands
`startTime > current HH:mm` for today's slots). -/
theorem availability_excludes_blackout_and_past
    (st : Store) (now pid : Nat) (s : Slot)
    (hmem : s ∈ availableSlots st now pid) :
    (∀ b ∈ st.blackouts, b.property = pid → b.date ≠ s.date) ∧
    (s.date = dayOf now → minOfDay now < s.startTime) := by
  simp only [availableSlots, List.mem_filter] at hmem
  obtain ⟨hq, hbl⟩ := hmem
  simp only [availQuery, List.mem_filter, Bool.and_eq_true, beq_iff_eq,
    decide_eq_true_eq, Bool.or_eq_true] at hq
  obtain ⟨hsl, ⟨⟨⟨⟨hprop, hge⟩, hle⟩, hnb⟩, hor⟩⟩ := hq
  constructor
  · intro b hb hbp heq
    rw [Bool.not_eq_true', List.any_eq_false] at hbl
    have hbf := hbl b hb
    simp only [Bool.and_eq_true, beq_iff_eq, decide_eq_true_eq] at hbf
    exact hbf ⟨⟨⟨hbp, heq ▸ hge⟩, heq ▸ hle⟩, heq⟩
  · intro hd
    cases hor with
    | inl hlt =>
      exfalso
      rw [hd] at hlt
      exact lt_irrefl _ hlt
    | inr hr =>
      exact hr.2

/-- C6 witness: in the race store on day 2, the day-3 slot is offered,
its date is in no blackout, and the today-condition holds vacuously. -/
theorem availability_excludes_blackout_and_past_witness :
    openSlot1 ∈ availableSlots raceStore raceNow 1 ∧
    ((∀ b ∈ raceStore.blackouts, b.property = 1 → b.date ≠ openSlot1.date) ∧
      (openSlot1.date = dayOf raceNow → minOfDay raceNow < openSlot1.startTime)) :=
  ⟨by decide,
    availability_excludes_blackout_and_past raceStore raceNow 1 openSlot1 (by decide)⟩

/-- C7 counterexample: a visit in the terminal state 'rejected' is not
protected — the recipient's `PUT /visits/:id/status` with 'approved'
succeeds and changes the status to 'approved', and the requester's
reschedule changes it to 'pending'.  The claim that no operation
changes a terminal status is false. -/
theorem terminal_status_changed :
    rejectedVisit.status = .rejected ∧
    (setStatus rejectedStore 5 1 .approved).1 = .okUpdated ∧
    (setStatus rejectedStore 5 1 .approved).2.visits.map Visit.status = [.approved] ∧
    (reschedule rejectedStore 7 1 (mkInstant 20 9 0 0) none).2.visits.map Visit.status
      = [.pending] := by decide

/-- C7 amended: none of cancel, approve/reject, or reschedule consults
the visit's current status.  For any stored visit, whatever its status
— including the terminal 'rejected' (and 'visited'/'not visited', which
the schema enum in fact keeps out of the store) — cancel by the
requester sets 'rejected', the recipient's status update sets the
requested 'approved'/'rejected', and the requester's reschedule sets
'pending'; only the caller's identity is checked. -/
theorem status_ops_ignore_current_status
    (st : Store) (caller vid t : Nat) (v : Visit) (s : VStatus)
    (h : findVisit st vid = some v) :
    (v.requester = caller →
      (cancelVisit st caller vid).1 = .okCancelled ∧
      findVisit (cancelVisit st caller vid).2 vid = some { v with status := .rejected }) ∧
    (v.recipient = caller → (s = .approved ∨ s = .rejected) →
      (setStatus st caller vid s).1 = .okUpdated ∧
      findVisit (setStatus st caller vid s).2 vid = some { v with status := s }) ∧
    (v.requester = caller →
      (reschedule st caller vid t none).1 = .okResched ∧
      findVisit (reschedule st caller vid t none).2 vid
        = some { v with scheduledAt := t, status := .pending }) := by
  have h2 : st.visits.find? (fun w : Visit => w.vid == vid) = some v := h
  have hvv := List.find?_some h2
  simp only [beq_iff_eq] at hvv
  refine ⟨?_, ?_, ?_⟩
  · intro hauth
    have hsv : trySaveVisit st { v with status := VStatus.rejected }
        = some (savedVisitStore st { v with status := VStatus.rejected }) := by
      simp [trySaveVisit, statusEnumOk]
    simp only [cancelVisit, h, hsv]
    rw [if_neg (not_not_intro hauth)]
    exact ⟨rfl, findVisit_trySave st _ vid v { v with status := VStatus.rejected } h hvv hsv⟩
  · intro hauth hs
    have henum : statusEnumOk s = true := by
      cases hs with
      | inl h1 => rw [h1]; rfl
      | inr h1 => rw [h1]; rfl
    have hsv : trySaveVisit st { v with status := s }
        = some (savedVisitStore st { v with status := s }) := by
      simp [trySaveVisit, henum]
    have hval : (!(s == VStatus.approved || s == VStatus.rejected)) = false := by
      cases hs with
      | inl h1 => rw [h1]; rfl
      | inr h1 => rw [h1]; rfl
    simp only [setStatus, h, hsv, hval, Bool.false_eq_true, if_false]
    rw [if_neg (not_not_intro hauth)]
    exact ⟨rfl, findVisit_trySave st _ vid v { v with status := s } h hvv hsv⟩
  · intro hauth
    have hsv : trySaveVisit st
          { v with scheduledAt := t, status := VStatus.pending, note := Option.getD none v.note }
        = some (savedVisitStore st
          { v with scheduledAt := t, status := VStatus.pending, note := Option.getD none v.note }) := by
      simp [trySaveVisit, statusEnumOk]
    simp only [reschedule, h, hsv]
    rw [if_neg (not_not_intro hauth)]
    refine ⟨rfl, ?_⟩
    have hfv := findVisit_trySave st _ vid v
      { v with scheduledAt := t, status := VStatus.pending, note := Option.getD none v.note }
      h hvv hsv
    simpa [Option.getD] using hfv

/-- C7 amended witness: cancelling the already-rejected visit leaves it
rejected and answers success. -/
theorem status_ops_ignore_current_status_witness :
    (cancelVisit rejectedStore 7 1).1 = .okCancelled ∧
    findVisit (cancelVisit rejectedStore 7 1).2 1
      = some { rejectedVisit with status := VStatus.rejected } :=
  (status_ops_ignore_current_status rejectedStore 7 1 0 rejectedVisit .approved
    (by decide)).1 (by decide)

/-- C10: the requester reschedule succeeds for every `scheduledAt`
value whatsoever — nothing constrains `t`, so instants in the past or
beyond the 30-day horizon are accepted — and it sets the visit's
`scheduledAt` to `t` and its status to 'pending'; no past-time,
horizon, blackout or slot-availability check is involved. -/
theorem reschedule_accepts_any_instant
    (st : Store) (caller vid t : Nat) (v : Visit)
    (h : findVisit st vid = some v) (hauth : v.requester = caller) :
    (reschedule st caller vid t none).1 = .okResched ∧
    findVisit (reschedule st caller vid t none).2 vid
      = some { v with scheduledAt := t, status := .pending } := by
  have h2 : st.visits.find? (fun w : Visit => w.vid == vid) = some v := h
  have hvv := List.find?_some h2
  simp only [beq_iff_eq] at hvv
  have hsv : trySaveVisit st
        { v with scheduledAt := t, status := VStatus.pending, note := Option.getD none v.note }
      = some (savedVisitStore st
        { v with scheduledAt := t, status := VStatus.pending, note := Option.getD none v.note }) := by
    simp [trySaveVisit, statusEnumOk]
  simp only [reschedule, h, hsv]
  rw [if_neg (not_not_intro hauth)]
  refine ⟨rfl, ?_⟩
  have hfv := findVisit_trySave st _ vid v
    { v with scheduledAt := t, status := VStatus.pending, note := Option.getD none v.note }
    h hvv hsv
  simpa [Option.getD] using hfv

/-- C10 witness: rescheduling the approved visit to instant 0 — the
epoch, far in the past and outside any horizon — succeeds and resets it
to pending. -/
theorem reschedule_accepts_any_instant_witness :
    (reschedule visitStore 7 1 0 none).1 = .okResched ∧
    findVisit (reschedule visitStore 7 1 0 none).2 1
      = some { approvedVisit with scheduledAt := 0, status := .pending } :=
  reschedule_accepts_any_instant visitStore 7 1 0 approvedVisit (by decide) (by decide)

/-- C2 amended witness: in the store whose only key slot is expired but
unbooked, the booking call succeeds. -/
theorem book_outcome_ignores_expired_witness :
    (bookVisit expiredStore raceNow 7 1 raceAt "").1 = .created expiredStore.nextVid :=
  ((book_outcome_ignores_expired expiredStore raceNow 7 1 raceAt "" (by decide) (by decide)
      (by decide) (by decide)).2 expiredSlot1 (by decide) (by decide) (by decide) (by decide)
      (by decide)).1 (by decide)

/-- C9: a booked slot is never released.  Cancel, approve/reject and
reschedule do not write the slots collection at all; the expiry sweep
leaves every booked slot exactly as it is (its candidates are unbooked,
and slot ids are unique); blackout creation keeps every booked slot
(its delete filter requires `isBooked: false`); a booked slot never
appears in availability output; and a booking can only be created
through a slot that is unbooked at the key — so a booked key cannot be
booked again. -/
theorem booked_slot_never_released
    (st : Store) (sl : Slot) (now caller vid pid d uid scheduledAt requester n : Nat)
    (noteo : Option String) (status : VStatus) (note : String)
    (hnodup : (st.slots.map Slot.sid).Nodup)
    (hmem : sl ∈ st.slots) (hbooked : sl.isBooked = true) :
    ((cancelVisit st caller vid).2.slots = st.slots) ∧
    ((setStatus st caller vid status).2.slots = st.slots) ∧
    ((reschedule st caller vid scheduledAt noteo).2.slots = st.slots) ∧
    sl ∈ (markExpiredSlots st now).slots ∧
    sl ∈ (markUnavailable st now uid pid d).2.slots ∧
    sl ∉ availableSlots st now pid ∧
    ((bookVisit st now requester pid scheduledAt note).1 = .created n →
      ∃ s ∈ st.slots, s.property = pid ∧ s.date = dayOf scheduledAt ∧
        s.startTime = minOfDay scheduledAt ∧ s.isBooked = false) := by
  refine ⟨cancelVisit_slots_eq st caller vid, setStatus_slots_eq st caller vid status,
    reschedule_slots_eq st caller vid scheduledAt noteo, ?_, ?_, ?_, ?_⟩
  · have hnotin : ¬ sl.sid ∈ (((st.slots.filter
        (fun s => s.isExpired == false && s.isBooked == false)).filter
        (fun s => endInstant s ≤ now)).map (fun s => s.sid)) := by
      intro hin
      obtain ⟨c, hcmem, hcsid⟩ := List.mem_map.mp hin
      have hc2 := List.mem_filter.mp hcmem
      have hc3 := List.mem_filter.mp hc2.1
      have hcslots : c ∈ st.slots := hc3.1
      have hcunbooked : c.isBooked = false := by
        have := hc3.2
        simp only [Bool.and_eq_true, beq_iff_eq] at this
        exact this.2
      have hceq : c = sl :=
        List.inj_on_of_nodup_map hnodup hcslots hmem hcsid
      rw [hceq] at hcunbooked
      rw [hbooked] at hcunbooked
      cases hcunbooked
    unfold markExpiredSlots
    refine List.mem_map.mpr ⟨sl, hmem, ?_⟩
    rw [if_neg (by simpa using hnotin)]
  · cases hfp : findProperty st pid with
    | none => simp only [markUnavailable, hfp]; exact hmem
    | some p =>
      simp only [markUnavailable, hfp]
      by_cases h1 : d < dayOf now
      · rw [if_pos h1]; exact hmem
      · rw [if_neg h1]
        by_cases h2 : dayOf (now + 30 * secPerDay) < d
        · rw [if_pos h2]; exact hmem
        · rw [if_neg h2]
          refine List.mem_filter.mpr ⟨hmem, ?_⟩
          simp [hbooked]
  · intro hc
    simp only [availableSlots, List.mem_filter] at hc
    have hq := hc.1
    simp only [availQuery, List.mem_filter, Bool.and_eq_true, beq_iff_eq] at hq
    have : sl.isBooked = false := hq.2.1.2
    rw [hbooked] at this
    cases this
  · intro hcr
    obtain ⟨s, hfo⟩ :=
      bookVisit_created_open st now requester pid scheduledAt note n hcr
    have hsm : s ∈ st.slots := List.mem_of_find?_eq_some hfo
    have hpred := List.find?_some hfo
    simp only [Bool.and_eq_true, beq_iff_eq] at hpred
    exact ⟨s, hsm, hpred.1.1.1, hpred.1.1.2, hpred.1.2, hpred.2⟩

/-- C9 witness: in the sweeper store, the booked day-0 slot is
preserved by the marking sweep and by blackout creation, is never
offered, and the booking handler cannot answer 201 for its key. -/
theorem booked_slot_never_released_witness :
    bookedPastSlot ∈ (markExpiredSlots sweepStore (mkInstant 1 12 0 0)).slots ∧
    bookedPastSlot ∉ availableSlots sweepStore (mkInstant 1 12 0 0) 1 :=
  ⟨(booked_slot_never_released sweepStore bookedPastSlot (mkInstant 1 12 0 0) 7 1 1 0 9 0 7 0
      none .approved "" (by decide) (by decide) (by decide)).2.2.2.1,
    (booked_slot_never_released sweepStore bookedPastSlot (mkInstant 1 12 0 0) 7 1 1 0 9 0 7 0
      none .approved "" (by decide) (by decide) (by decide)).2.2.2.2.2.1⟩

end OwnSpace
